import Mathlib

/-!
Shallow embedding of `enop-rs` (`src/lib.rs`): the problem catalog
(`EngineeringOptimizationProblem::new` querying the Python module
`enoppy.paper_based.rwco_2020`) and the evaluation bridge
(`EngineeringOptimizationEvaluator::evaluate`).  Rust panics are modelled
as `none` / a dedicated `panic` constructor, `ExecResult` errors as explicit
error constructors, and the Python oracle as an opaque function from
solution vectors to call outcomes.
-/

/-- Values of Rust `f64` as the bridge consumes them: NaN, the two
infinities, and finite numbers, the latter represented exactly by
rationals.  The bridge does no float arithmetic; it only classifies NaN. -/
inductive FVal where
  | nan : FVal
  | inf : FVal
  | neginf : FVal
  | fin : ℚ → FVal
deriving DecidableEq

/-- The classification `f64::is_nan` used by the objective conversion. -/
def FVal.isNaN : FVal → Bool
  | FVal.nan => true
  | _ => false

/-- The mahf type `SingleObjective`: a scalar objective value guaranteed
not to be NaN. -/
def SingleObjective : Type := {v : FVal // v.isNaN = false}

instance : DecidableEq SingleObjective :=
  inferInstanceAs (DecidableEq {v : FVal // v.isNaN = false})

/-- The mahf conversion `SingleObjective::try_from(f64)`: succeeds exactly
on non-NaN input. -/
def SingleObjective.tryFrom (v : FVal) : Option SingleObjective :=
  if h : v.isNaN = false then some ⟨v, h⟩ else none

/-- Modelled from the spec: the body of mahf `SingleObjective::default()`
is not part of this repository.  The spec calls the value substituted on
scoring failure "the sentinel worst-case value (positive infinity under a
minimization convention)" and states that the numeric-conversion fallback
degrades to the same worst-case sentinel, so the default objective is
modelled as positive infinity. -/
def SingleObjective.default : SingleObjective := ⟨FVal.inf, rfl⟩

/-- The mahf type `Individual`: a solution vector together with the
objective value assigned to it, if any. -/
structure Individual where
  solution : List FVal
  objective : Option SingleObjective
deriving DecidableEq

/-- The struct `EngineeringOptimizationProblem`: problem name, declared
dimensionality `dim`, and per-variable `domain` of `Range<f64>` values
modelled as start-end pairs. -/
structure EngineeringOptimizationProblem where
  name : String
  dim : Nat
  domain : List (FVal × FVal)
deriving DecidableEq

/-- The accessor `dimension` of the `VectorProblem` impl: returns `dim`. -/
def EngineeringOptimizationProblem.dimension
    (p : EngineeringOptimizationProblem) : Nat :=
  p.dim

/-- Metadata a Python problem object supplies to the constructor: the
attribute `n_dims` extracted as `usize` and the attribute `bounds`
extracted as `Vec<Vec<f64>>`. -/
structure PyProblem where
  n_dims : Nat
  bounds : List (List FVal)
deriving DecidableEq

/-- The Python module `enoppy.paper_based.rwco_2020` as `new` observes it:
for each attribute name, either absent (`getattr` raises because the name
is not registered), present but failing during `call0` or metadata
extraction (`Except.error`), or yielding problem metadata. -/
def PyModule : Type := String → Option (Except Unit PyProblem)

/-- Which step of `EngineeringOptimizationProblem::new` failed: the
`getattr` lookup of an unregistered name, or a later construction or
extraction failure. -/
inductive NewError where
  | unknownProblem : NewError
  | constructionError : NewError
deriving DecidableEq

/-- Result of `EngineeringOptimizationProblem::new`: an `ExecResult` error
returned through the `?` operator, a Rust panic, or a built problem. -/
inductive NewOutcome where
  | err : NewError → NewOutcome
  | panic : NewOutcome
  | ok : EngineeringOptimizationProblem → NewOutcome
deriving DecidableEq

/-- The expression `bound[0]..bound[1]`: `none` models the Rust index
panic when the Python-supplied bound vector has fewer than two entries;
entries beyond the first two are ignored. -/
def rangeOfBound (bound : List FVal) : Option (FVal × FVal) :=
  match bound.get? 0, bound.get? 1 with
  | some lo, some hi => some (lo, hi)
  | _, _ => none

/-- The iterator chain `bounds.into_iter().map(|bound| bound[0]..bound[1])
.collect()`, with a panic in any entry propagating. -/
def rangesOfBounds : List (List FVal) → Option (List (FVal × FVal))
  | [] => some []
  | b :: rest => do
      let r ← rangeOfBound b
      let rs ← rangesOfBounds rest
      pure (r :: rs)

/-- `EngineeringOptimizationProblem::new`: look the name up in the module,
construct the Python problem, extract `n_dims` and `bounds`, and build the
descriptor.  No consistency check between `n_dims` and `bounds` is made. -/
def EngineeringOptimizationProblem.new (pymod : PyModule) (name : String) :
    NewOutcome :=
  match pymod name with
  | none => NewOutcome.err NewError.unknownProblem
  | some (Except.error _) => NewOutcome.err NewError.constructionError
  | some (Except.ok py) =>
      match rangesOfBounds py.bounds with
      | none => NewOutcome.panic
      | some domain => NewOutcome.ok ⟨name, py.n_dims, domain⟩

/-- Outcome of the Python scoring call `call_method1("evaluate", ..)`
followed by `extract::<f64>()`: the call may raise, the returned object
may fail to extract as `f64`, or a float value is obtained. -/
inductive OracleReply where
  | raise : OracleReply
  | notF64 : OracleReply
  | val : FVal → OracleReply
deriving DecidableEq

/-- The oracle held in `EngineeringOptimizationEvaluator::inner`: a
scoring function over solution vectors, deterministic by assumption. -/
def Oracle : Type := List FVal → OracleReply

/-- The fitness chain `call_method1("evaluate", ..).unwrap()
.extract::<f64>().unwrap_or(f64::INFINITY)`: a raised call panics
(`none`), a result that fails extraction is replaced by positive
infinity, and otherwise the extracted value is kept. -/
def extractedFitness : OracleReply → Option FVal
  | OracleReply.raise => none
  | OracleReply.notF64 => some FVal.inf
  | OracleReply.val v => some v

/-- The binding `objective_value = SingleObjective::try_from(fitness)
.unwrap_or_default()`: a NaN fitness falls back to the default
objective. -/
def objectiveOf (fitness : FVal) : SingleObjective :=
  (SingleObjective.tryFrom fitness).getD SingleObjective.default

/-- One iteration of the evaluation loop: clone the solution, obtain the
fitness (panicking if the call raised), convert it through
`SingleObjective::try_from(fitness).unwrap_or_default()`, and store the
objective on the individual. -/
def evaluateOne (oracle : Oracle) (ind : Individual) : Option Individual :=
  (extractedFitness (oracle ind.solution)).map fun fitness =>
    { ind with objective := some (objectiveOf fitness) }

/-- `EngineeringOptimizationEvaluator::evaluate`: score the individuals
sequentially in the order given; the `_problem` argument is unused by the
body, and a panic in any iteration propagates to the caller (`none`). -/
def evaluate (_problem : EngineeringOptimizationProblem) (oracle : Oracle) :
    List Individual → Option (List Individual)
  | [] => some []
  | ind :: rest => do
      let r ← evaluateOne oracle ind
      let rs ← evaluate _problem oracle rest
      pure (r :: rs)

/-!
Concrete fixtures used by witnesses and counterexamples.
-/

/-- A concrete dimension-2 problem descriptor. -/
def pTwo : EngineeringOptimizationProblem :=
  ⟨"P", 2, [(FVal.fin 0, FVal.fin 10), (FVal.fin 0, FVal.fin 5)]⟩

/-- A second, unrelated problem descriptor with an empty domain. -/
def pOther : EngineeringOptimizationProblem := ⟨"Q", 1, []⟩

/-- The concrete solution vector `[1]`. -/
def solOne : List FVal := [FVal.fin 1]

/-- The concrete solution vector `[2]`. -/
def solTwo : List FVal := [FVal.fin 2]

/-- The concrete solution vector `[3]`. -/
def solThree : List FVal := [FVal.fin 3]

/-- An oracle that raises on every call. -/
def raisingOracle : Oracle := fun _ => OracleReply.raise

/-- An oracle returning the finite score 7 on every call. -/
def constSeven : Oracle := fun _ => OracleReply.val (FVal.fin 7)

/-- An oracle returning the finite score 9 on every call. -/
def constNine : Oracle := fun _ => OracleReply.val (FVal.fin 9)

/-- An oracle returning NaN on every call. -/
def nanOracle : Oracle := fun _ => OracleReply.val FVal.nan

/-- An oracle that raises exactly on the solution `[2]` and returns the
finite score 7 elsewhere. -/
def raiseOnSecond : Oracle := fun s =>
  if s = solTwo then OracleReply.raise else OracleReply.val (FVal.fin 7)

/-- An oracle whose result on the solution `[2]` fails to extract as `f64`
and that returns the finite score 7 elsewhere. -/
def notF64OnSecond : Oracle := fun s =>
  if s = solTwo then OracleReply.notF64 else OracleReply.val (FVal.fin 7)

/-- An oracle that raises exactly on vectors whose length is not 2. -/
def strictLenOracle : Oracle := fun s =>
  if s.length = 2 then OracleReply.val (FVal.fin 0) else OracleReply.raise

/-- Two oracles that agree on the solution `[1]` but differ elsewhere. -/
def oracleA : Oracle := fun s =>
  if s = solOne then OracleReply.val (FVal.fin 7) else OracleReply.raise

/-- Second oracle of the pair agreeing with `oracleA` on `[1]` only. -/
def oracleB : Oracle := fun s =>
  if s = solOne then OracleReply.val (FVal.fin 7)
  else OracleReply.val (FVal.fin 8)

/-- An unevaluated individual with the one-entry solution vector `[0]`. -/
def indZero : Individual := ⟨[FVal.fin 0], none⟩

/-- An unevaluated individual of length 3, wrong for a dimension-2
problem. -/
def indLenThree : Individual :=
  ⟨[FVal.fin 0, FVal.fin 0, FVal.fin 0], none⟩

/-- A module exposing one problem whose declared `n_dims` disagrees with
the number of declared bounds pairs. -/
def mismatchedModule : PyModule := fun name =>
  if name = "Mismatched" then
    some (Except.ok ⟨2, [[FVal.fin 0, FVal.fin 1]]⟩)
  else none

/-- A module exposing one problem whose declared `n_dims` matches the
number of declared bounds pairs. -/
def consistentModule : PyModule := fun name =>
  if name = "Consistent" then
    some (Except.ok ⟨2, [[FVal.fin 0, FVal.fin 10], [FVal.fin 0, FVal.fin 5]]⟩)
  else none

/-- An already-evaluated individual with solution `[1]` and a stale
stored objective. -/
def indPrior : Individual := ⟨solOne, some ⟨FVal.fin 3, rfl⟩⟩

/-!
Helper lemmas shared by the claim theorems.
-/

/-- Unfolding equation of `evaluate` on the empty batch. -/
theorem evaluate_nil (p : EngineeringOptimizationProblem)
    (oracle : Oracle) : evaluate p oracle [] = some [] := rfl

/-- Unfolding equation of `evaluate` on a non-empty batch. -/
theorem evaluate_cons (p : EngineeringOptimizationProblem)
    (oracle : Oracle) (ind : Individual) (rest : List Individual) :
    evaluate p oracle (ind :: rest) =
      (evaluateOne oracle ind).bind fun r =>
        (evaluate p oracle rest).bind fun rs => some (r :: rs) := rfl

/-- A successful loop iteration leaves the solution vector unchanged. -/
theorem evaluateOne_solution (oracle : Oracle) (ind r : Individual)
    (h : evaluateOne oracle ind = some r) : r.solution = ind.solution := by
  unfold evaluateOne at h
  cases hf : extractedFitness (oracle ind.solution) with
  | none => rw [hf] at h; cases h
  | some fit =>
      rw [hf] at h
      have h2 := Option.some.inj h
      rw [← h2]

/-- `rangesOfBounds` preserves the number of bounds pairs. -/
theorem rangesOfBounds_length (bs : List (List FVal))
    (ds : List (FVal × FVal)) (h : rangesOfBounds bs = some ds) :
    ds.length = bs.length := by
  induction bs generalizing ds with
  | nil =>
      have h2 := Option.some.inj h
      rw [← h2]
      rfl
  | cons b rest ih =>
      have h2 : ((rangeOfBound b).bind fun r =>
          (rangesOfBounds rest).bind fun rs => some (r :: rs)) = some ds := h
      cases hr : rangeOfBound b with
      | none => rw [hr] at h2; simp at h2
      | some r =>
          rw [hr] at h2
          have h3 : ((rangesOfBounds rest).bind fun rs =>
              some (r :: rs)) = some ds := h2
          cases hrs : rangesOfBounds rest with
          | none => rw [hrs] at h3; simp at h3
          | some rs =>
              rw [hrs] at h3
              have h4 : some (r :: rs) = some ds := h3
              have h5 := Option.some.inj h4
              rw [← h5]
              simp [ih rs hrs]

/-!
Claim theorems.
-/

/-- C1 counterexample: with the oracle raising on the single candidate,
the batch evaluation panics (`none`) instead of assigning the sentinel
worst-case objective, so the fault does surface to the caller. -/
theorem c1_counterexample : evaluate pTwo raisingOracle [indZero] = none :=
  rfl

/-- C1 (amended): per candidate, the scoring chain recovers only after a
successful call: a return value that fails `f64` extraction is replaced by
the positive-infinity sentinel, a NaN return falls back to the default
objective, a non-NaN numeric return is kept as the score, but a raised
scoring call panics instead of being converted to the sentinel. -/
theorem c1_fault_handling (oracle : Oracle) (ind : Individual) :
    (oracle ind.solution = OracleReply.raise →
      evaluateOne oracle ind = none) ∧
    (oracle ind.solution = OracleReply.notF64 →
      evaluateOne oracle ind =
        some { ind with objective := some ⟨FVal.inf, rfl⟩ }) ∧
    (oracle ind.solution = OracleReply.val FVal.nan →
      evaluateOne oracle ind =
        some { ind with objective := some SingleObjective.default }) ∧
    (∀ v, (hv : v.isNaN = false) →
      oracle ind.solution = OracleReply.val v →
      evaluateOne oracle ind =
        some { ind with objective := some ⟨v, hv⟩ }) := by
  refine ⟨fun h => ?_, fun h => ?_, fun h => ?_, fun v hv h => ?_⟩
  · simp [evaluateOne, h, extractedFitness]
  · simp [evaluateOne, h, extractedFitness, objectiveOf, SingleObjective.tryFrom,
      FVal.isNaN]
  · simp [evaluateOne, h, extractedFitness, objectiveOf, SingleObjective.tryFrom,
      FVal.isNaN]
  · simp [evaluateOne, h, extractedFitness, objectiveOf, SingleObjective.tryFrom, hv]

/-- C1 witness: the amended fault handling, applied at the raising oracle
and a concrete individual. -/
theorem c1_witness : evaluateOne raisingOracle indZero = none :=
  (c1_fault_handling raisingOracle indZero).1 rfl

/-- C2 counterexample: the oracle raising on the second of three
candidates makes the whole batch panic; the batch does not return three
scores with the second one equal to the sentinel. -/
theorem c2_counterexample :
    evaluate pTwo raiseOnSecond
      [⟨solOne, none⟩, ⟨solTwo, none⟩, ⟨solThree, none⟩] = none := rfl

/-- C2 (amended): containment holds for recovered faults only: when the
oracle result on the second of three candidates fails to extract as
`f64`, the batch still yields three scored individuals, the second
carrying the sentinel positive-infinity objective and the first and third
their ordinary scores; a raised oracle call instead panics the batch. -/
theorem c2_containment (p : EngineeringOptimizationProblem)
    (oracle : Oracle) (i1 i2 i3 r1 r3 : Individual)
    (h1 : evaluateOne oracle i1 = some r1)
    (h2 : oracle i2.solution = OracleReply.notF64)
    (h3 : evaluateOne oracle i3 = some r3) :
    evaluate p oracle [i1, i2, i3] =
      some [r1, { i2 with objective := some ⟨FVal.inf, rfl⟩ }, r3] := by
  have hm : evaluateOne oracle i2 =
      some { i2 with objective := some ⟨FVal.inf, rfl⟩ } := by
    simp [evaluateOne, h2, extractedFitness, objectiveOf, SingleObjective.tryFrom,
      FVal.isNaN]
  simp only [evaluate_cons, evaluate_nil, h1, hm, h3]
  rfl

/-- C2 witness: the amended containment applied at a concrete batch of
three candidates whose second score fails extraction. -/
theorem c2_witness :
    evaluate pTwo notF64OnSecond
      [⟨solOne, none⟩, ⟨solTwo, none⟩, ⟨solThree, none⟩] =
      some [⟨solOne, some ⟨FVal.fin 7, rfl⟩⟩,
            ⟨solTwo, some ⟨FVal.inf, rfl⟩⟩,
            ⟨solThree, some ⟨FVal.fin 7, rfl⟩⟩] :=
  c2_containment pTwo notF64OnSecond
    ⟨solOne, none⟩ ⟨solTwo, none⟩ ⟨solThree, none⟩
    ⟨solOne, some ⟨FVal.fin 7, rfl⟩⟩ ⟨solThree, some ⟨FVal.fin 7, rfl⟩⟩
    rfl rfl rfl

/-- C6: a name the Python module does not expose makes `new` fail with
the unknown-problem error, and no descriptor of any kind is produced. -/
theorem c6_unknown_problem (pymod : PyModule) (name : String)
    (h : pymod name = none) :
    EngineeringOptimizationProblem.new pymod name =
      NewOutcome.err NewError.unknownProblem := by
  unfold EngineeringOptimizationProblem.new
  rw [h]

/-- C6 witness: the unknown-problem failure at a concrete module and a
concrete unregistered name. -/
theorem c6_witness :
    EngineeringOptimizationProblem.new mismatchedModule "does-not-exist" =
      NewOutcome.err NewError.unknownProblem :=
  c6_unknown_problem mismatchedModule "does-not-exist" rfl

/-- C10 counterexample: a raised scoring call does not reach any final
objective through a fallback path: the evaluation panics and assigns no
objective at all. -/
theorem c10_counterexample :
    evaluate pTwo raisingOracle [⟨solThree, none⟩] = none := rfl

/-- C10 (amended): a NaN reply extracts as a valid `f64`, so the
positive-infinity substitution does not trigger; the `SingleObjective`
conversion then fails and the individual receives the default objective.
A reply failing extraction takes the other fallback path, the
positive-infinity substitution, while a raised call takes neither and
panics. -/
theorem c10_nan_default (oracle : Oracle) (ind : Individual)
    (h : oracle ind.solution = OracleReply.val FVal.nan) :
    extractedFitness (oracle ind.solution) = some FVal.nan ∧
    SingleObjective.tryFrom FVal.nan = none ∧
    extractedFitness OracleReply.notF64 = some FVal.inf ∧
    extractedFitness OracleReply.raise = none ∧
    evaluateOne oracle ind =
      some { ind with objective := some SingleObjective.default } := by
  refine ⟨by rw [h]; rfl, by decide, rfl, rfl, ?_⟩
  simp [evaluateOne, h, extractedFitness, objectiveOf, SingleObjective.tryFrom,
    FVal.isNaN]

/-- C10 witness: the NaN fallback applied at the NaN oracle and a
concrete individual. -/
theorem c10_witness :
    evaluateOne nanOracle ⟨solOne, none⟩ =
      some ⟨solOne, some SingleObjective.default⟩ :=
  (c10_nan_default nanOracle ⟨solOne, none⟩ rfl).2.2.2.2

/-- C3 counterexample: with the raising oracle, a two-candidate batch
produces no scores at all rather than one objective per candidate. -/
theorem c3_counterexample :
    evaluate pTwo raisingOracle [⟨solOne, none⟩, ⟨solThree, none⟩] =
      none := rfl

/-- C3 (amended): whenever the batch evaluation does not panic, it
assigns exactly one objective per input candidate, in the order supplied:
position by position, the output individual is the evaluation of the
input individual; a raised scoring call instead panics the batch. -/
theorem c3_order_preserved (p : EngineeringOptimizationProblem)
    (oracle : Oracle) (inds out : List Individual)
    (h : evaluate p oracle inds = some out) :
    out.length = inds.length ∧
    ∀ i, (inds.get? i).bind (evaluateOne oracle) = out.get? i := by
  induction inds generalizing out with
  | nil =>
      have h2 := Option.some.inj h
      subst h2
      exact ⟨rfl, fun i => rfl⟩
  | cons a t ih =>
      have h2 : ((evaluateOne oracle a).bind fun r =>
          (evaluate p oracle t).bind fun rs => some (r :: rs)) =
            some out := h
      cases h1 : evaluateOne oracle a with
      | none => rw [h1] at h2; simp at h2
      | some r =>
          rw [h1] at h2
          have h3 : ((evaluate p oracle t).bind fun rs =>
              some (r :: rs)) = some out := h2
          cases hrest : evaluate p oracle t with
          | none => rw [hrest] at h3; simp at h3
          | some rs =>
              rw [hrest] at h3
              have h4 := Option.some.inj
                (show some (r :: rs) = some out from h3)
              subst h4
              obtain ⟨hlen, hidx⟩ := ih rs hrest
              refine ⟨by simp [hlen], fun i => ?_⟩
              cases i with
              | zero => simp [h1]
              | succ n => simpa using hidx n

/-- C3 witness: the order-preservation applied at a one-candidate batch
under the constant oracle. -/
theorem c3_witness :
    (([⟨solOne, some ⟨FVal.fin 7, rfl⟩⟩] : List Individual).length =
      ([⟨solOne, none⟩] : List Individual).length) ∧
    ∀ i, (([⟨solOne, none⟩] : List Individual).get? i).bind
        (evaluateOne constSeven) =
      ([⟨solOne, some ⟨FVal.fin 7, rfl⟩⟩] : List Individual).get? i :=
  c3_order_preserved pTwo constSeven [⟨solOne, none⟩]
    [⟨solOne, some ⟨FVal.fin 7, rfl⟩⟩] rfl

/-- C4 counterexample: `new` performs no consistency check, so a module
declaring `n_dims = 2` with a single bounds pair yields a successfully
constructed descriptor whose dimension is 2 while its domain has
length 1. -/
theorem c4_counterexample :
    EngineeringOptimizationProblem.new mismatchedModule "Mismatched" =
      NewOutcome.ok ⟨"Mismatched", 2, [(FVal.fin 0, FVal.fin 1)]⟩ ∧
    (EngineeringOptimizationProblem.mk "Mismatched" 2
        [(FVal.fin 0, FVal.fin 1)]).dimension ≠
      (EngineeringOptimizationProblem.mk "Mismatched" 2
        [(FVal.fin 0, FVal.fin 1)]).domain.length :=
  ⟨rfl, by decide⟩

/-- C4 (amended): the constructor copies `n_dims` and `bounds` without a
consistency check, so a constructed descriptor satisfies
`dimension = len(domain)` exactly when the oracle module declares as many
bounds pairs as `n_dims`. -/
theorem c4_dim_matches_domain (pymod : PyModule) (name : String)
    (py : PyProblem) (p : EngineeringOptimizationProblem)
    (hmod : pymod name = some (Except.ok py))
    (hlen : py.bounds.length = py.n_dims)
    (hp : EngineeringOptimizationProblem.new pymod name =
      NewOutcome.ok p) :
    p.dimension = p.domain.length := by
  have h2 : (match rangesOfBounds py.bounds with
      | none => NewOutcome.panic
      | some domain =>
          NewOutcome.ok ⟨name, py.n_dims, domain⟩) = NewOutcome.ok p := by
    rw [← hp]
    unfold EngineeringOptimizationProblem.new
    rw [hmod]
  cases hr : rangesOfBounds py.bounds with
  | none =>
      rw [hr] at h2
      exact NewOutcome.noConfusion h2
  | some ds =>
      rw [hr] at h2
      have h3 : EngineeringOptimizationProblem.mk name py.n_dims ds = p :=
        by injection h2
      rw [← h3]
      show py.n_dims = ds.length
      rw [rangesOfBounds_length py.bounds ds hr, hlen]

/-- C4 witness: the dimension-domain agreement at a module with
consistent metadata. -/
theorem c4_witness :
    (EngineeringOptimizationProblem.mk "Consistent" 2
        [(FVal.fin 0, FVal.fin 10), (FVal.fin 0, FVal.fin 5)]).dimension =
      (EngineeringOptimizationProblem.mk "Consistent" 2
        [(FVal.fin 0, FVal.fin 10), (FVal.fin 0, FVal.fin 5)]).domain.length :=
  c4_dim_matches_domain consistentModule "Consistent"
    ⟨2, [[FVal.fin 0, FVal.fin 10], [FVal.fin 0, FVal.fin 5]]⟩
    (EngineeringOptimizationProblem.mk "Consistent" 2
      [(FVal.fin 0, FVal.fin 10), (FVal.fin 0, FVal.fin 5)])
    rfl rfl rfl

/-- C5 counterexample: a length-3 candidate against the dimension-2
problem reaches the oracle unchanged, and the oracle raising on it makes
the evaluation panic: the wrong-length input is neither rejected before
the oracle nor degraded to the sentinel value. -/
theorem c5_counterexample :
    evaluate pTwo strictLenOracle [indLenThree] = none := rfl

/-- C5 (amended): the bridge makes no length check and never truncates or
pads: a candidate whose length differs from the problem dimension is
scored from the oracle reply on the full vector exactly like any other
candidate, so a raised call on it panics and a numeric reply is accepted
as its score. -/
theorem c5_wrong_length (p : EngineeringOptimizationProblem)
    (oracle : Oracle) (ind : Individual)
    (_hlen : ind.solution.length ≠ p.dimension) :
    (oracle ind.solution = OracleReply.raise →
      evaluate p oracle [ind] = none) ∧
    ∀ v, (hv : v.isNaN = false) →
      oracle ind.solution = OracleReply.val v →
      evaluate p oracle [ind] =
        some [{ ind with objective := some ⟨v, hv⟩ }] := by
  constructor
  · intro h
    have h1 : evaluateOne oracle ind = none := by
      simp [evaluateOne, h, extractedFitness]
    simp [evaluate_cons, h1]
  · intro v hv h
    have h1 : evaluateOne oracle ind =
        some { ind with objective := some ⟨v, hv⟩ } := by
      simp [evaluateOne, h, extractedFitness, objectiveOf, SingleObjective.tryFrom, hv]
    simp only [evaluate_cons, evaluate_nil, h1]
    rfl

/-- C5 witness: the wrong-length behavior applied at a length-3 candidate
against the dimension-2 problem, with the oracle returning 9. -/
theorem c5_witness :
    evaluate pTwo constNine [indLenThree] =
      some [{ indLenThree with objective := some ⟨FVal.fin 9, rfl⟩ }] :=
  (c5_wrong_length pTwo constNine indLenThree (by decide)).2
    (FVal.fin 9) rfl rfl

/-- C7: evaluation is referentially consistent and keeps no state between
calls: the produced objective sequence depends only on the solution
vectors, so two batches with identical solutions (whatever objectives
were previously stored on the individuals) receive identical score
sequences. -/
theorem c7_deterministic (p : EngineeringOptimizationProblem)
    (oracle : Oracle) (inds1 inds2 : List Individual)
    (h : inds1.map Individual.solution = inds2.map Individual.solution) :
    Option.map (List.map Individual.objective)
        (evaluate p oracle inds1) =
      Option.map (List.map Individual.objective)
        (evaluate p oracle inds2) := by
  induction inds1 generalizing inds2 with
  | nil =>
      cases inds2 with
      | nil => rfl
      | cons b u => exact absurd h (by simp)
  | cons a t ih =>
      cases inds2 with
      | nil => exact absurd h (by simp)
      | cons b u =>
          simp only [List.map_cons, List.cons.injEq] at h
          obtain ⟨hab, htu⟩ := h
          have ih2 := ih u htu
          rw [evaluate_cons, evaluate_cons]
          cases hf : extractedFitness (oracle a.solution) with
          | none =>
              have hf2 : extractedFitness (oracle b.solution) = none := by
                rw [← hab]; exact hf
              have e1 : evaluateOne oracle a = none := by
                unfold evaluateOne; rw [hf]; rfl
              have e2 : evaluateOne oracle b = none := by
                unfold evaluateOne; rw [hf2]; rfl
              rw [e1, e2]
              rfl
          | some fit =>
              have hf2 : extractedFitness (oracle b.solution) =
                  some fit := by
                rw [← hab]; exact hf
              have e1 : evaluateOne oracle a =
                  some { a with objective := some (objectiveOf fit) } := by
                unfold evaluateOne; rw [hf]; rfl
              have e2 : evaluateOne oracle b =
                  some { b with objective := some (objectiveOf fit) } := by
                unfold evaluateOne; rw [hf2]; rfl
              rw [e1, e2]
              simp only [Option.some_bind]
              cases h1 : evaluate p oracle t with
              | none =>
                  rw [h1] at ih2
                  cases h2 : evaluate p oracle u with
                  | none => rfl
                  | some us =>
                      rw [h2] at ih2
                      exact absurd ih2 (by simp)
              | some ts =>
                  rw [h1] at ih2
                  cases h2 : evaluate p oracle u with
                  | none =>
                      rw [h2] at ih2
                      exact absurd ih2 (by simp)
                  | some us =>
                      rw [h2] at ih2
                      simp only [Option.map_some', Option.some.injEq]
                        at ih2
                      simp [ih2]

/-- C7 witness: the determinism applied at two one-candidate batches with
the same solution but different previously stored objectives. -/
theorem c7_witness :
    Option.map (List.map Individual.objective)
        (evaluate pTwo constNine [⟨solOne, none⟩]) =
      Option.map (List.map Individual.objective)
        (evaluate pTwo constNine [indPrior]) :=
  c7_deterministic pTwo constNine [⟨solOne, none⟩] [indPrior] rfl

/-- C8: the bridge neither clips nor validates candidates against the
domain: the batch outcome depends only on the oracle replies at each
candidate exact solution vector and not on the problem descriptor, whose
dimension and domain the body ignores. -/
theorem c8_no_clipping (p q : EngineeringOptimizationProblem)
    (g1 g2 : Oracle) (inds : List Individual)
    (hg : ∀ ind ∈ inds, g1 ind.solution = g2 ind.solution) :
    evaluate p g1 inds = evaluate q g2 inds := by
  induction inds with
  | nil => rfl
  | cons a t ih =>
      have ha : g1 a.solution = g2 a.solution :=
        hg a (List.mem_cons_self a t)
      have ht : evaluate p g1 t = evaluate q g2 t :=
        ih fun ind hi => hg ind (List.mem_cons_of_mem a hi)
      rw [evaluate_cons, evaluate_cons, ht]
      have hone : evaluateOne g1 a = evaluateOne g2 a := by
        unfold evaluateOne; rw [ha]
      rw [hone]

/-- C8 witness: the oracle-extensionality applied at two oracles agreeing
on the single candidate but differing elsewhere, under two different
problem descriptors. -/
theorem c8_witness :
    evaluate pTwo oracleA [⟨solOne, none⟩] =
      evaluate pOther oracleB [⟨solOne, none⟩] :=
  c8_no_clipping pTwo pOther oracleA oracleB [⟨solOne, none⟩]
    (by
      intro ind hi
      rw [List.mem_singleton] at hi
      subst hi
      rfl)

/-- C9: a batch evaluation that returns mutates only the objectives: the
output individuals carry exactly the input solution vectors, position by
position. -/
theorem c9_solutions_unchanged (p : EngineeringOptimizationProblem)
    (oracle : Oracle) (inds out : List Individual)
    (h : evaluate p oracle inds = some out) :
    out.map Individual.solution = inds.map Individual.solution := by
  induction inds generalizing out with
  | nil =>
      have h2 := Option.some.inj h
      subst h2
      rfl
  | cons a t ih =>
      have h2 : ((evaluateOne oracle a).bind fun r =>
          (evaluate p oracle t).bind fun rs => some (r :: rs)) =
            some out := h
      cases h1 : evaluateOne oracle a with
      | none => rw [h1] at h2; simp at h2
      | some r =>
          rw [h1] at h2
          have h3 : ((evaluate p oracle t).bind fun rs =>
              some (r :: rs)) = some out := h2
          cases hrest : evaluate p oracle t with
          | none => rw [hrest] at h3; simp at h3
          | some rs =>
              rw [hrest] at h3
              have h4 := Option.some.inj
                (show some (r :: rs) = some out from h3)
              subst h4
              simp [evaluateOne_solution oracle a r h1, ih rs hrest]

/-- C9 witness: the solution preservation applied at a concrete
one-candidate batch. -/
theorem c9_witness :
    ([⟨solOne, some ⟨FVal.fin 7, rfl⟩⟩] : List Individual).map
        Individual.solution =
      ([⟨solOne, none⟩] : List Individual).map Individual.solution :=
  c9_solutions_unchanged pTwo constSeven [⟨solOne, none⟩]
    [⟨solOne, some ⟨FVal.fin 7, rfl⟩⟩] rfl
